import Mathlib

/-!
Verification development for the "Electron 2" CPU emulator core
(`src/electron-2/lib.rs` and `src/electron-2/parser.rs`).

The Rust code is shallowly embedded: machine bytes are `Nat` values masked
with `% 256` exactly where the Rust code casts to `u8`; the `i32` fields are
`Int`; register / RAM / port banks are total functions `Int → Nat` written
through the same guards the Rust code uses.  Rust array indexing panics on an
out-of-range index (a negative `i32` cast with `as usize` becomes huge), so
every stage that indexes an array under an incomplete guard is modelled in
`Option`, with `none` standing for a runtime panic.
-/

namespace Electron2

/-- The closed enumeration of the 25 operation mnemonics (`Operation` in lib.rs). -/
inductive Operation where
  | NOOP | IMM | MOV | ADD | ADDC | SUB | OR | XOR | AND | SHR | NOT
  | OUT | ROUT | INP | JMP | BIE | BIG | BIL | BIO | STORE | LOAD
  | PUSH | POP | CALL | RET
deriving DecidableEq

/-- The arg-prefix modes (`OperationArgs` in lib.rs). -/
inductive OperationArgs where
  | None | S | U | X
deriving DecidableEq

/-- Operand kinds (`OperandType` in lib.rs). -/
inductive OperandType where
  | Register | MemoryAddress | Immediate | Port
deriving DecidableEq

/-- An operand: a kind together with a signed 32-bit data field (`Operand` in lib.rs). -/
structure Operand where
  type_ : OperandType
  data : Int
deriving DecidableEq

/-- A parsed instruction (`Instruction` in lib.rs). -/
structure Instruction where
  operation : Operation
  args : OperationArgs
  a : Operand
  b : Operand
  address : Int
  source_line : Int
deriving DecidableEq

/-- The sentinel instruction (`Instruction::none` in lib.rs). -/
def Instruction.none : Instruction :=
  { operation := Operation.NOOP
    args := OperationArgs.None
    a := { type_ := OperandType.Immediate, data := 0 }
    b := { type_ := OperandType.Immediate, data := 0 }
    address := -1
    source_line := 0 }

/-- The two-phase register file (`Registers` in lib.rs): `regs` is the current
bank, `next_regs` the bank written during a cycle.  Banks are total functions
on the `i32` index used by the Rust code; only indices 1..7 are ever written. -/
structure Registers where
  regs : Int → Nat
  next_regs : Int → Nat

def Registers.new : Registers := { regs := fun _ => 0, next_regs := fun _ => 0 }

def Registers.begin_cycle (r : Registers) : Registers := { r with next_regs := r.regs }

def Registers.end_cycle (r : Registers) : Registers := { r with regs := r.next_regs }

/-- `Registers::read`: indices `≤ 0` or `> 7` read as 0 (register 0 is the
hard-wired zero). -/
def Registers.read (r : Registers) (addr : Int) : Nat :=
  if addr ≤ 0 ∨ addr > 7 then 0 else r.regs addr

/-- `Registers::write`: writes land in `next_regs`; indices outside `1..7`
are silently discarded. -/
def Registers.write (r : Registers) (addr : Int) (data : Nat) : Registers :=
  if addr > 0 ∧ addr < 8 then
    { r with next_regs := fun i => if i = addr then data else r.next_regs i }
  else r

/-- The four condition flags (`AluFlags` in lib.rs). -/
structure AluFlags where
  equals : Bool
  greater : Bool
  less : Bool
  overflow : Bool
deriving DecidableEq

/-- Accumulator plus flags (`ALU` in lib.rs).  The accumulator is a `u8`;
every write masks with `% 256`. -/
structure ALU where
  accumulator : Nat
  flags : AluFlags

def ALU.new : ALU :=
  { accumulator := 0
    flags := { equals := false, greater := false, less := false, overflow := false } }

/-- The `a_data` input of `ALU::execute`: the accumulator under arg-prefix
`U`/`X`, otherwise the register selected by operand A. -/
def alu_a_data (alu : ALU) (registers : Registers) (instr : Instruction) : Nat :=
  if instr.args = OperationArgs.U ∨ instr.args = OperationArgs.X then alu.accumulator
  else registers.read instr.a.data

/-- The `result` computed by the `match` in `ALU::execute` (an `i32`).
`SHR` is a logical right shift of `b_data`; `NOT` is `(!b_data as i32) & 0xFF`. -/
def alu_result (alu : ALU) (a_data b_data : Nat) (op : Operation) : Int :=
  match op with
  | Operation.ADD => (a_data : Int) + (b_data : Int)
  | Operation.ADDC => (a_data : Int) + (b_data : Int) + (if alu.flags.overflow then 1 else 0)
  | Operation.SUB => (a_data : Int) - (b_data : Int)
  | Operation.OR => ((a_data ||| b_data : Nat) : Int)
  | Operation.XOR => ((a_data ^^^ b_data : Nat) : Int)
  | Operation.AND => ((a_data &&& b_data : Nat) : Int)
  | Operation.SHR => ((b_data >>> 1 : Nat) : Int)
  | Operation.NOT => ((((b_data ^^^ 255) &&& 255 : Nat)) : Int)
  | _ => 0

/-- The `is_alu_op` test of `ALU::execute`. -/
def is_alu_op (op : Operation) : Bool :=
  match op with
  | Operation.ADD | Operation.ADDC | Operation.SUB | Operation.OR | Operation.XOR
  | Operation.AND | Operation.SHR | Operation.NOT => true
  | _ => false

/-- `ALU::execute`.  Returns the updated ALU together with the (possibly
updated) `input_register` and `waiting_for_input` out-parameters.  `INP` sets
the two out-parameters; arithmetic/logical operations set the four flags from
the two input bytes and store `result & 0xFF` in the accumulator. -/
def ALU.execute (alu : ALU) (registers : Registers) (instr : Instruction)
    (input_register : Int) (waiting_for_input : Bool) : ALU × Int × Bool :=
  let a_data := alu_a_data alu registers instr
  let b_data := registers.read instr.b.data
  let result := alu_result alu a_data b_data instr.operation
  let io : Int × Bool :=
    if instr.operation = Operation.INP then (instr.a.data, true)
    else (input_register, waiting_for_input)
  if is_alu_op instr.operation then
    ({ accumulator := (result % 256).toNat
       flags :=
        { equals := decide (a_data = b_data)
          greater := decide (b_data < a_data)
          less := decide (a_data < b_data)
          overflow := decide (¬ (0 ≤ result ∧ result ≤ 255)) } }, io.1, io.2)
  else (alu, io.1, io.2)

/-- The whole emulator state (`Emulator` in lib.rs). -/
structure Emulator where
  instructions : List Instruction
  pc : Int
  sp : Int
  fetch_reg : Instruction
  decode_reg : Instruction
  execute_reg : Instruction
  writeback_reg : Instruction
  registers : Registers
  alu : ALU
  ports_out : Int → Nat
  ram : Int → Nat
  waiting_for_input : Bool
  input_register : Int
  errors : List String
  warnings : List String

/-- Point update of a memory bank (`arr[i] = v` on an in-range index). -/
def setCell (f : Int → Nat) (i : Int) (v : Nat) : Int → Nat :=
  fun j => if j = i then v else f j

/-- `Emulator::increment_pc`: `pc += 1`, wrapping to 0 once it reaches 255. -/
def increment_pc (s : Emulator) : Emulator :=
  let p := s.pc + 1
  { s with pc := if p ≥ 255 then 0 else p }

/-- `Emulator::fetch_stage` guard and lookup: `instructions[pc]`, or the
sentinel when `pc` is outside the program. -/
def fetchAt (il : List Instruction) (pc : Int) : Instruction :=
  if 0 ≤ pc ∧ pc.toNat < il.length then il.getD pc.toNat Instruction.none
  else Instruction.none

def fetch_stage (s : Emulator) : Emulator :=
  { s with fetch_reg := fetchAt s.instructions s.pc }

/-- `Emulator::decode_stage`: copy the fetch latch into the decode latch. -/
def decode_stage (s : Emulator) : Emulator :=
  { s with decode_reg := s.fetch_reg }

/-- The tail of `Emulator::execute_stage` shared by all operations: apply the
branch (set `pc` from the execute latch's A operand and flush the fetch latch)
when `take` is set, then run the ALU. -/
def exec_finish (s2 : Emulator) (take : Bool) : Emulator :=
  let s3 :=
    if take then { s2 with pc := s2.execute_reg.a.data, fetch_reg := Instruction.none }
    else s2
  let r := ALU.execute s3.alu s3.registers s3.execute_reg s3.input_register s3.waiting_for_input
  { s3 with alu := r.1, input_register := r.2.1, waiting_for_input := r.2.2 }

/-- `Emulator::execute_stage`.  Copies the decode latch forward, decides
`take_branch` (RET first pops the return address from RAM into the latch's A
operand and always branches), then finishes with `exec_finish`.  The RAM read
of RET is a Rust array index; `none` models the panic on an out-of-bounds
stack pointer. -/
def execute_stage (s : Emulator) : Option Emulator :=
  let s1 := { s with execute_reg := s.decode_reg }
  let op := s1.execute_reg.operation
  if op = Operation.RET then
    let sp1 := s1.sp + 1
    let sp2 := if sp1 > 15 then 0 else sp1
    if 0 ≤ sp2 ∧ sp2 < 16 then
      some (exec_finish
        { s1 with
            sp := sp2
            execute_reg :=
              { s1.execute_reg with
                  a := { s1.execute_reg.a with data := (s1.ram sp2 : Int) } } } true)
    else none
  else
    some (exec_finish s1 (decide (op = Operation.JMP ∨ op = Operation.CALL ∨
      (op = Operation.BIE ∧ s1.alu.flags.equals = true) ∨
      (op = Operation.BIG ∧ s1.alu.flags.greater = true) ∨
      (op = Operation.BIO ∧ s1.alu.flags.overflow = true) ∨
      (op = Operation.BIL ∧ s1.alu.flags.less = true))))

/-- `Emulator::write_back_stage`.  Copies the execute latch forward and
performs the architectural write.  Array indexings that the Rust code guards
only from above (`OUT`, `STORE`, `LOAD`) or whose index is the stack pointer
(`PUSH`, `POP`, `CALL`) return `none` exactly where the Rust `as usize`
indexing would panic. -/
def write_back_stage (s : Emulator) : Option Emulator :=
  let s := { s with writeback_reg := s.execute_reg }
  let op := s.writeback_reg.operation
  let a := s.writeback_reg.a.data
  let b := s.writeback_reg.b.data
  let address := s.writeback_reg.address
  match op with
  | Operation.IMM => some { s with registers := s.registers.write a (b % 256).toNat }
  | Operation.MOV => some { s with registers := s.registers.write a (s.registers.read b) }
  | Operation.ADD | Operation.ADDC | Operation.SUB
  | Operation.OR | Operation.XOR | Operation.AND =>
      if s.writeback_reg.args = OperationArgs.S ∨ s.writeback_reg.args = OperationArgs.U ∨
          s.writeback_reg.args = OperationArgs.None then
        some { s with registers := s.registers.write a s.alu.accumulator }
      else some s
  | Operation.SHR | Operation.NOT =>
      some { s with registers := s.registers.write a s.alu.accumulator }
  | Operation.INP =>
      some { s with registers := s.registers.write a s.alu.accumulator }
  | Operation.OUT =>
      if a < 8 then
        if 0 ≤ a then some { s with ports_out := setCell s.ports_out a (s.registers.read b) }
        else none
      else some s
  | Operation.ROUT =>
      if s.registers.read a < 8 then
        some { s with
                 ports_out := setCell s.ports_out (s.registers.read a : Int) (s.registers.read b) }
      else some s
  | Operation.STORE =>
      if a < 16 then
        if 0 ≤ a then some { s with ram := setCell s.ram a (s.registers.read b) }
        else none
      else some s
  | Operation.LOAD =>
      if b < 16 then
        if 0 ≤ b then some { s with registers := s.registers.write a (s.ram b) }
        else none
      else some s
  | Operation.PUSH =>
      if 0 ≤ s.sp then
        if s.sp < 16 then
          let sp1 := s.sp - 1
          some { s with
                   ram := setCell s.ram s.sp (s.registers.read a)
                   sp := if sp1 < 0 then 15 else sp1 }
        else none
      else some s
  | Operation.POP =>
      let sp1 := s.sp + 1
      let sp2 := if sp1 > 15 then 0 else sp1
      if 0 ≤ sp2 ∧ sp2 < 16 then
        some { s with sp := sp2, registers := s.registers.write a (s.ram sp2) }
      else none
  | Operation.CALL =>
      if 0 ≤ s.sp then
        if s.sp < 16 then
          let sp1 := s.sp - 1
          some { s with
                   ram := setCell s.ram s.sp (((address + 1) % 256).toNat)
                   sp := if sp1 < 0 then 15 else sp1 }
        else none
      else some s
  | _ => some s

/-- The tail of `Emulator::clock` after the execute stage: decode, fetch,
`increment_pc`, and `end_cycle` on the register file (all total). -/
def clock_tail (s2 : Emulator) : Emulator :=
  let s3 := fetch_stage (decode_stage s2)
  let s4 := increment_pc s3
  { s4 with registers := s4.registers.end_cycle }

/-- `Emulator::clock`: a no-op while waiting for input; otherwise run the four
stages in reverse order between the two register-file cycle phases and bump
`pc`.  `none` models a Rust panic inside a stage. -/
def clock (s : Emulator) : Option Emulator :=
  if s.waiting_for_input = true then some s
  else
    match write_back_stage { s with registers := s.registers.begin_cycle } with
    | Option.none => Option.none
    | Option.some s1 =>
      match execute_stage s1 with
      | Option.none => Option.none
      | Option.some s2 => some (clock_tail s2)

/-- `Emulator::resolve_input`: if an `INP` is pending, store the value (masked
to a byte) in the accumulator and clear the wait flag; otherwise do nothing. -/
def resolve_input (s : Emulator) (val : Int) : Emulator :=
  if s.waiting_for_input = true then
    { s with
        alu := { s.alu with accumulator := (val % 256).toNat }
        waiting_for_input := false }
  else s

/-- Iterated `clock` (propagating a panic). -/
def clockN : Nat → Emulator → Option Emulator
  | 0, s => some s
  | n + 1, s =>
    match clock s with
    | Option.none => Option.none
    | Option.some s2 => clockN n s2

/-- A freshly reset emulator owning a given instruction stream, as produced by
`Emulator::new` / `load_program` (which reset pc, sp, registers, ALU, latches,
ports, RAM and the input-wait flag). -/
def Emulator.withProgram (il : List Instruction) : Emulator :=
  { instructions := il
    pc := 0
    sp := 15
    fetch_reg := Instruction.none
    decode_reg := Instruction.none
    execute_reg := Instruction.none
    writeback_reg := Instruction.none
    registers := Registers.new
    alu := ALU.new
    ports_out := fun _ => 0
    ram := fun _ => 0
    waiting_for_input := false
    input_register := 0
    errors := []
    warnings := [] }

/-- The states reachable from `s0` by any sequence of `clock()` and
`resolve_input()` calls (a `clock` that panics has no successor). -/
inductive Reachable (s0 : Emulator) : Emulator → Prop where
  | refl : Reachable s0 s0
  | clock {s s' : Emulator} : Reachable s0 s → clock s = some s' → Reachable s0 s'
  | input {s : Emulator} (v : Int) : Reachable s0 s → Reachable s0 (resolve_input s v)

/-!
## The parser (`parser.rs`)

Source lines are processed as lists of characters.  Rust's string helpers
(`lines`, `split`, `trim`, `to_uppercase`, `split_whitespace`, `find`) are
reproduced character by character; all inputs of interest are ASCII, where
Lean's `Char.toUpper` / `Char.isWhitespace` agree with Rust's.
-/

namespace Parser

/-- Split a character list at every occurrence of `c` (like Rust `str::split`). -/
def splitOnChar (c : Char) : List Char → List (List Char)
  | [] => [[]]
  | x :: xs =>
    let r := splitOnChar c xs
    if x = c then [] :: r
    else
      match r with
      | [] => [[x]]
      | y :: ys => (x :: y) :: ys

/-- `line.split(';').next().unwrap_or("")`: the text before the first `;`. -/
def firstPiece (l : List Char) : List Char := (splitOnChar ';' l).headD []

/-- Rust `str::trim` (ASCII whitespace suffices for the sources considered). -/
def trimL (l : List Char) : List Char :=
  ((l.dropWhile Char.isWhitespace).reverse.dropWhile Char.isWhitespace).reverse

/-- Rust `str::to_uppercase` (ASCII). -/
def toUpperL (l : List Char) : List Char := l.map Char.toUpper

/-- Drop one trailing carriage return (for a line that was followed by `\n`,
so that `\r\n` counts as one line ending). -/
def stripCR (l : List Char) : List Char :=
  match l.getLast? with
  | Option.some c => if c = '\r' then l.dropLast else l
  | Option.none => l

/-- Rust `str::lines`: split on `\n` (a preceding `\r` belongs to the line
ending), the final line ending being optional; a final line that is not
terminated keeps any trailing `\r`. -/
def rustLines (l : List Char) : List (List Char) :=
  let parts := splitOnChar '\n' l
  match parts.getLast? with
  | Option.some last =>
    if last = [] then (parts.dropLast).map stripCR
    else (parts.dropLast).map stripCR ++ [last]
  | Option.none => []

def splitWsAux : List Char → List (List Char)
  | [] => [[]]
  | x :: xs =>
    let r := splitWsAux xs
    if x.isWhitespace then [] :: r
    else
      match r with
      | [] => [[x]]
      | y :: ys => (x :: y) :: ys

/-- Rust `str::split_whitespace`: whitespace-separated non-empty tokens. -/
def splitWs (l : List Char) : List (List Char) := (splitWsAux l).filter (fun p => ¬ p = [])

/-- `clean.find(c)` together with the two slices around the first occurrence. -/
def splitAtFirst (c : Char) : List Char → Option (List Char × List Char)
  | [] => Option.none
  | x :: xs =>
    if x = c then some ([], xs)
    else (splitAtFirst c xs).map (fun p => (x :: p.1, p.2))

/-- The label table: a `HashMap` where later inserts shadow earlier ones. -/
def lookupLabel : List (List Char × Int) → List Char → Option Int
  | [], _ => Option.none
  | (k, v) :: rest, key => if key = k then some v else lookupLabel rest key

def strL (s : String) : List Char := s.data

def digitVal (base : Nat) (c : Char) : Option Nat :=
  if base = 2 then (if c = '0' then some 0 else if c = '1' then some 1 else Option.none)
  else if '0' ≤ c ∧ c ≤ '9' then some (c.toNat - 48) else Option.none

def digitsVal (base : Nat) : List Char → Nat → Option Nat
  | [], acc => some acc
  | c :: cs, acc =>
    match digitVal base c with
    | Option.some d => digitsVal base cs (acc * base + d)
    | Option.none => Option.none

/-- Rust `i32::from_str_radix` / `str::parse::<i32>`: an optional sign, at
least one digit of the base, and an `i32` range check. -/
def parseI32 (base : Nat) (cs : List Char) : Option Int :=
  let sd : Bool × List Char :=
    match cs with
    | '+' :: r => (true, r)
    | '-' :: r => (false, r)
    | r => (true, r)
  if sd.2 = [] then Option.none
  else
    match digitsVal base sd.2 0 with
    | Option.none => Option.none
    | Option.some n =>
      let v : Int := if sd.1 then (n : Int) else -(n : Int)
      if v < -(2 ^ 31) ∨ 2 ^ 31 ≤ v then Option.none else some v

/-- `Parser::parse_binary`: strip underscores; a leading `B` selects base 2,
otherwise decimal. -/
def parse_binary (s : List Char) : Except String Int :=
  let clean := s.filter (fun c => ¬ c = '_')
  match clean with
  | 'B' :: rest =>
    match parseI32 2 rest with
    | Option.some v => Except.ok v
    | Option.none => Except.error (("Invalid binary: ") ++ String.mk s)
  | _ =>
    match parseI32 10 clean with
    | Option.some v => Except.ok v
    | Option.none => Except.error (("Invalid number: ") ++ String.mk s)

/-- `Parser::match_op`: the 25 mnemonics plus the `NOP` synonym. -/
def match_op (s : List Char) : Option Operation :=
  if s = strL ("NOOP") ∨ s = strL ("NOP") then some Operation.NOOP
  else if s = strL ("IMM") then some Operation.IMM
  else if s = strL ("MOV") then some Operation.MOV
  else if s = strL ("ADD") then some Operation.ADD
  else if s = strL ("ADDC") then some Operation.ADDC
  else if s = strL ("SUB") then some Operation.SUB
  else if s = strL ("OR") then some Operation.OR
  else if s = strL ("XOR") then some Operation.XOR
  else if s = strL ("AND") then some Operation.AND
  else if s = strL ("SHR") then some Operation.SHR
  else if s = strL ("NOT") then some Operation.NOT
  else if s = strL ("OUT") then some Operation.OUT
  else if s = strL ("ROUT") then some Operation.ROUT
  else if s = strL ("INP") then some Operation.INP
  else if s = strL ("JMP") then some Operation.JMP
  else if s = strL ("BIE") then some Operation.BIE
  else if s = strL ("BIG") then some Operation.BIG
  else if s = strL ("BIL") then some Operation.BIL
  else if s = strL ("BIO") then some Operation.BIO
  else if s = strL ("STORE") then some Operation.STORE
  else if s = strL ("LOAD") then some Operation.LOAD
  else if s = strL ("PUSH") then some Operation.PUSH
  else if s = strL ("POP") then some Operation.POP
  else if s = strL ("CALL") then some Operation.CALL
  else if s = strL ("RET") then some Operation.RET
  else Option.none

/-- `Parser::parse_operation`: a whole-token mnemonic, or a single-letter
`S`/`U`/`X` prefix on a mnemonic; anything else is an error.  (An empty token
never reaches this function: `split_whitespace` yields non-empty tokens;
on `[]` the Rust code would panic on `unwrap`.) -/
def parse_operation (s : List Char) : Except String (Operation × OperationArgs) :=
  match match_op s with
  | Option.some op => Except.ok (op, OperationArgs.None)
  | Option.none =>
    match s with
    | [] => Except.error ("Invalid operation: ")
    | first :: rest =>
      match match_op rest with
      | Option.some op =>
        if first = 'S' then Except.ok (op, OperationArgs.S)
        else if first = 'U' then Except.ok (op, OperationArgs.U)
        else if first = 'X' then Except.ok (op, OperationArgs.X)
        else Except.error (("Invalid operation: ") ++ String.mk s)
      | Option.none => Except.error (("Invalid operation: ") ++ String.mk s)

/-- `Parser::get_needed_operands`. -/
def get_needed_operands (op : Operation) (args : OperationArgs) : Bool × Bool :=
  match op with
  | Operation.NOOP | Operation.RET => (false, false)
  | Operation.IMM | Operation.MOV | Operation.SHR | Operation.NOT
  | Operation.OUT | Operation.STORE | Operation.LOAD | Operation.ROUT => (true, true)
  | Operation.ADD | Operation.ADDC | Operation.SUB
  | Operation.OR | Operation.XOR | Operation.AND =>
      if args = OperationArgs.X then (false, true) else (true, true)
  | Operation.JMP | Operation.BIE | Operation.BIG
  | Operation.BIL | Operation.BIO | Operation.INP
  | Operation.PUSH | Operation.POP | Operation.CALL => (true, false)

/-- `Parser::parse_operand`: sigils `R`/`$` (register, falling through on a
bad number), `#`/`@` (memory), `%` (port), else a number or a label. -/
def parse_operand (s : List Char) (labels : List (List Char × Int)) : Except String Operand :=
  match s with
  | [] => Except.error ("Empty operand")
  | first :: rest =>
    match (if first = 'R' ∨ first = '$' then (parse_binary rest).toOption else Option.none) with
    | Option.some val => Except.ok { type_ := OperandType.Register, data := val }
    | Option.none =>
      if first = '#' ∨ first = '@' then
        match parse_binary rest with
        | Except.ok v => Except.ok { type_ := OperandType.MemoryAddress, data := v }
        | Except.error e => Except.error e
      else if first = '%' then
        match parse_binary rest with
        | Except.ok v => Except.ok { type_ := OperandType.Port, data := v }
        | Except.error e => Except.error e
      else
        match (parse_binary s).toOption with
        | Option.some v => Except.ok { type_ := OperandType.Immediate, data := v }
        | Option.none =>
          match lookupLabel labels s with
          | Option.some addr => Except.ok { type_ := OperandType.Immediate, data := addr }
          | Option.none =>
            Except.error (("Invalid value or unknown label: ") ++ String.mk s)

def msg_zero_reg (line : Int) : String :=
  ("Line ") ++ toString line ++
    (": Writing to Register 0 (Zero Register) effectively does nothing.")

def msg_imm_range (line v : Int) : String :=
  ("Line ") ++ toString line ++ (": Immediate value ") ++ toString v ++
    (" is out of 8-bit range (0-255). It will be wrapped.")

def msg_port_range (line v : Int) : String :=
  ("Line ") ++ toString line ++ (": Port %") ++ toString v ++ (" is out of range (0-7).")

def msg_mem_range (line v : Int) : String :=
  ("Line ") ++ toString line ++ (": Memory address #") ++ toString v ++
    (" is out of RAM range (0-15).")

/-- The RAW-hazard warning text. -/
def rawMsg (line w : Int) : String :=
  ("Line ") ++ toString line ++ (": RAW Hazard. Reading R") ++ toString w ++
    (" immediately after writing may yield old value due to pipeline latency. Insert a NOOP.")

/-- `Parser::check_warnings`: the four static warnings. -/
def check_warnings (instr : Instruction) (line : Int) : List String :=
  let op := instr.operation
  let a := instr.a
  let b := instr.b
  let writes_to_a :=
    op ∈ [Operation.IMM, Operation.MOV, Operation.ADD, Operation.ADDC,
          Operation.SUB, Operation.AND, Operation.OR, Operation.XOR,
          Operation.SHR, Operation.NOT, Operation.LOAD, Operation.POP,
          Operation.INP]
  let w1 : List String :=
    if writes_to_a ∧ a.type_ = OperandType.Register ∧ a.data = 0 then
      let safe :=
        op ∈ [Operation.ADD, Operation.ADDC, Operation.SUB,
              Operation.AND, Operation.OR, Operation.XOR] ∧
          instr.args = OperationArgs.X
      if ¬ safe then [msg_zero_reg line] else []
    else []
  let w2 : List String :=
    if a.type_ = OperandType.Immediate ∧ (a.data < 0 ∨ a.data > 255) ∧
        ¬ op ∈ [Operation.JMP, Operation.CALL, Operation.BIE, Operation.BIG,
                Operation.BIL, Operation.BIO] then
      [msg_imm_range line a.data]
    else []
  let w3 : List String :=
    if b.type_ = OperandType.Immediate ∧ (b.data < 0 ∨ b.data > 255) then
      [msg_imm_range line b.data]
    else []
  let w4 : List String :=
    if op = Operation.OUT ∧ a.type_ = OperandType.Port ∧ (a.data < 0 ∨ a.data > 7) then
      [msg_port_range line a.data]
    else []
  let w5 : List String :=
    if op = Operation.STORE ∧ a.type_ = OperandType.MemoryAddress ∧
        (a.data < 0 ∨ a.data > 15) then
      [msg_mem_range line a.data]
    else []
  let w6 : List String :=
    if op = Operation.LOAD ∧ b.type_ = OperandType.MemoryAddress ∧
        (b.data < 0 ∨ b.data > 15) then
      [msg_mem_range line b.data]
    else []
  w1 ++ w2 ++ w3 ++ w4 ++ w5 ++ w6

/-- `Parser::get_write_register`: the register written by an instruction, if any. -/
def get_write_register (instr : Instruction) : Option Int :=
  if ¬ instr.a.type_ = OperandType.Register then Option.none
  else
    match instr.operation with
    | Operation.IMM | Operation.MOV | Operation.LOAD | Operation.POP | Operation.INP =>
        some instr.a.data
    | Operation.ADD | Operation.ADDC | Operation.SUB
    | Operation.AND | Operation.OR | Operation.XOR =>
        if instr.args = OperationArgs.X then Option.none else some instr.a.data
    | Operation.SHR | Operation.NOT => some instr.a.data
    | _ => Option.none

/-- The "Check Operand A (Source)" block of `Parser::get_read_registers`. -/
def reads_a (instr : Instruction) : List Int :=
  if instr.a.type_ = OperandType.Register then
    match instr.operation with
    | Operation.ADD | Operation.ADDC | Operation.SUB
    | Operation.AND | Operation.OR | Operation.XOR =>
        if ¬ instr.args = OperationArgs.U ∧ ¬ instr.args = OperationArgs.X then
          [instr.a.data]
        else []
    | Operation.PUSH | Operation.ROUT => [instr.a.data]
    | _ => []
  else []

/-- The "Check Operand B (Source)" block of `Parser::get_read_registers`. -/
def reads_b (instr : Instruction) : List Int :=
  if instr.b.type_ = OperandType.Register then
    match instr.operation with
    | Operation.MOV | Operation.ADD | Operation.ADDC | Operation.SUB
    | Operation.AND | Operation.OR | Operation.XOR
    | Operation.SHR | Operation.NOT | Operation.OUT
    | Operation.ROUT | Operation.STORE => [instr.b.data]
    | _ => []
  else []

/-- `Parser::get_read_registers`: the registers an instruction reads. -/
def get_read_registers (instr : Instruction) : List Int :=
  reads_a instr ++ reads_b instr

/-- The RAW-hazard check of `Parser::parse`: the register written by `prev`,
provided the current instruction reads it. -/
def rawHazardOpt (prev cur : Instruction) : Option Int :=
  match get_write_register prev with
  | Option.some w => if w ∈ get_read_registers cur then Option.some w else Option.none
  | Option.none => Option.none

def defaultOperand : Operand := { type_ := OperandType.Immediate, data := 0 }

/-- `Parser::parse_line`: clean the line, drop a leading label, parse the
operation token and up to two operands (missing operands default to
Immediate 0). -/
def parse_line (line : List Char) (address source_line : Int)
    (labels : List (List Char × Int)) : Except String (Option Instruction) :=
  let clean0 := toUpperL (trimL (firstPiece line))
  let clean :=
    match splitAtFirst ':' clean0 with
    | Option.some p => trimL p.2
    | Option.none => clean0
  if clean = [] then Except.ok Option.none
  else
    match splitWs clean with
    | [] => Except.ok Option.none
    | t0 :: trest =>
      match parse_operation t0 with
      | Except.error e => Except.error e
      | Except.ok oa =>
        let needed := get_needed_operands oa.1 oa.2
        let mk : Operand → Operand → Except String (Option Instruction) := fun va vb =>
          Except.ok (some
            { operation := oa.1, args := oa.2, a := va, b := vb
              address := address, source_line := source_line })
        if needed.1 = true ∧ ¬ trest = [] then
          match parse_operand (trest.getD 0 []) labels with
          | Except.error e => Except.error e
          | Except.ok va =>
            if needed.2 = true ∧ 1 < trest.length then
              match parse_operand (trest.getD 1 []) labels with
              | Except.error e => Except.error e
              | Except.ok vb => mk va vb
            else mk va defaultOperand
        else
          if needed.2 = true ∧ ¬ trest = [] then
            match parse_operand (trest.getD 0 []) labels with
            | Except.error e => Except.error e
            | Except.ok vb => mk defaultOperand vb
          else mk defaultOperand defaultOperand

/-- Pass 0 of `Parser::parse`: scan the label table. -/
def scanLabels : List (List Char) → Int → List (List Char × Int) → List (List Char × Int)
  | [], _, acc => acc
  | line :: rest, addr, acc =>
    let clean := toUpperL (trimL (firstPiece line))
    match splitAtFirst ':' clean with
    | Option.some p =>
      let acc2 := if p.1.contains ' ' then acc else (p.1, addr) :: acc
      let after := trimL p.2
      scanLabels rest (if ¬ after = [] then addr + 1 else addr) acc2
    | Option.none =>
      scanLabels rest (if ¬ clean = [] then addr + 1 else addr) acc

/-- Pass 1 of `Parser::parse`: emit instructions, static warnings, the
RAW-hazard warning against the previously emitted instruction, and
line-tagged errors. -/
def parseGo (labels : List (List Char × Int)) :
    List (List Char) → Int → Int → List Instruction → List String → List String →
      List Instruction × List String × List String
  | [], _, _, accI, accE, accW => (accI, accE, accW)
  | line :: rest, i, addr, accI, accE, accW =>
    match parse_line line addr i labels with
    | Except.ok (Option.some instr) =>
      let warns := check_warnings instr i
      let hazard : List String :=
        match accI.getLast? with
        | Option.some prev =>
          match rawHazardOpt prev instr with
          | Option.some w => [rawMsg i w]
          | Option.none => []
        | Option.none => []
      parseGo labels rest (i + 1) (addr + 1) (accI ++ [instr]) accE (accW ++ warns ++ hazard)
    | Except.ok Option.none => parseGo labels rest (i + 1) addr accI accE accW
    | Except.error e =>
      parseGo labels rest (i + 1) addr accI
        (accE ++ [("Line ") ++ toString i ++ (": ") ++ e]) accW

/-- `Parser::parse`: the two passes over the source text. -/
def parse (code : String) : List Instruction × List String × List String :=
  let lines := rustLines code.data
  let labels := scanLabels lines 0 []
  parseGo labels lines 1 0 [] [] []

end Parser

/-- `Emulator::new`: parse the source and start from the reset state. -/
def Emulator.new (code : String) : Emulator :=
  let p := Parser.parse code
  { Emulator.withProgram p.1 with errors := p.2.1, warnings := p.2.2 }

/-- The operations whose A operand is used directly as a branch target by
`execute_stage` (RET branches too, but its target is read from RAM). -/
def branchOps : List Operation :=
  [Operation.JMP, Operation.CALL, Operation.BIE, Operation.BIG,
   Operation.BIL, Operation.BIO]

/-- The instruction's A operand is a safe branch target (at least -1, so that
the subsequent `increment_pc` lands back in `[0, 254]`). -/
def branchOK (i : Instruction) : Prop := i.operation ∈ branchOps → -1 ≤ i.a.data

/-- The `take_branch` condition of `execute_stage`, evaluated on the state
entering the stage (whose decode latch is copied into the execute latch). -/
def takes_branch (t : Emulator) : Bool :=
  decide (t.decode_reg.operation = Operation.JMP ∨ t.decode_reg.operation = Operation.CALL ∨
    (t.decode_reg.operation = Operation.BIE ∧ t.alu.flags.equals = true) ∨
    (t.decode_reg.operation = Operation.BIG ∧ t.alu.flags.greater = true) ∨
    (t.decode_reg.operation = Operation.BIO ∧ t.alu.flags.overflow = true) ∨
    (t.decode_reg.operation = Operation.BIL ∧ t.alu.flags.less = true)) ||
  decide (t.decode_reg.operation = Operation.RET)

/-- The `INP R3` program of claim C8. -/
def inpEmu : Emulator := Emulator.new ("INP R3")

/-- The state of the `INP R3` program once the INP has executed (three ticks). -/
def inpStalled : Emulator := (clockN 3 inpEmu).getD (Emulator.withProgram [])

/-- The RAW-hazard condition exactly as worded by claim C4 (to be compared
with the code's `get_write_register` / `get_read_registers` combination):
the first instruction writes a register and that register index is in the
second instruction's register read set. -/
def hazardSpec (prev cur : Instruction) : Prop :=
  prev.a.type_ = OperandType.Register ∧
  (prev.operation ∈ [Operation.IMM, Operation.MOV, Operation.LOAD, Operation.POP,
      Operation.INP, Operation.SHR, Operation.NOT] ∨
    (prev.operation ∈ [Operation.ADD, Operation.ADDC, Operation.SUB, Operation.OR,
        Operation.XOR, Operation.AND] ∧ ¬ prev.args = OperationArgs.X)) ∧
  ((cur.a.type_ = OperandType.Register ∧ prev.a.data = cur.a.data ∧
      ((cur.operation ∈ [Operation.ADD, Operation.ADDC, Operation.SUB, Operation.OR,
          Operation.XOR, Operation.AND] ∧ ¬ cur.args = OperationArgs.U ∧
          ¬ cur.args = OperationArgs.X) ∨
        cur.operation = Operation.PUSH ∨ cur.operation = Operation.ROUT)) ∨
    (cur.b.type_ = OperandType.Register ∧ prev.a.data = cur.b.data ∧
      cur.operation ∈ [Operation.MOV, Operation.ADD, Operation.ADDC, Operation.SUB,
        Operation.AND, Operation.OR, Operation.XOR, Operation.SHR, Operation.NOT,
        Operation.OUT, Operation.ROUT, Operation.STORE]))

/-- `IMM R1 5` as parsed (witness instruction). -/
def immR1I5 : Instruction :=
  { operation := Operation.IMM, args := OperationArgs.None
    a := { type_ := OperandType.Register, data := 1 }
    b := { type_ := OperandType.Immediate, data := 5 }
    address := 0, source_line := 1 }

/-- `ADD R2 R1` as parsed (witness instruction). -/
def addR2R1 : Instruction :=
  { operation := Operation.ADD, args := OperationArgs.None
    a := { type_ := OperandType.Register, data := 2 }
    b := { type_ := OperandType.Register, data := 1 }
    address := 1, source_line := 2 }

/-- A program NOOP as the parser emits it (`NOOP` line). -/
def noopAt (ad li : Int) : Instruction :=
  { operation := Operation.NOOP, args := OperationArgs.None
    a := { type_ := OperandType.Immediate, data := 0 }
    b := { type_ := OperandType.Immediate, data := 0 }
    address := ad, source_line := li }

/-- `IMM r v` at address 0 as the parser emits it. -/
def immInstr (r v : Int) : Instruction :=
  { operation := Operation.IMM, args := OperationArgs.None
    a := { type_ := OperandType.Register, data := r }
    b := { type_ := OperandType.Immediate, data := v }
    address := 0, source_line := 1 }

/-- The five-instruction program of claim C6: `IMM r v` followed by four NOOPs. -/
def progC6 (r v : Int) : List Instruction :=
  [immInstr r v, noopAt 1 2, noopAt 2 3, noopAt 3 4, noopAt 4 5]

/-- Every instruction that can sit in a pipeline latch while the C6 program
runs: a NOOP (program NOOP or sentinel) or the IMM instruction itself. -/
def latchOK6 (r v : Int) (i : Instruction) : Prop :=
  i.operation = Operation.NOOP ∨ i = immInstr r v

/-- `ADD R1 R2` (witness instruction for the ALU claim). -/
def aluAddInstr : Instruction :=
  { operation := Operation.ADD, args := OperationArgs.None
    a := { type_ := OperandType.Register, data := 1 }
    b := { type_ := OperandType.Register, data := 2 }
    address := 0, source_line := 1 }

/-- `JMP 0` (witness instruction for the non-ALU part of the ALU claim). -/
def aluJmpInstr : Instruction :=
  { operation := Operation.JMP, args := OperationArgs.None
    a := { type_ := OperandType.Immediate, data := 0 }
    b := { type_ := OperandType.Immediate, data := 0 }
    address := 0, source_line := 1 }

/-!
## Helper lemmas about the pipeline stages
-/

lemma wb_frame {s s' : Emulator} (h : write_back_stage s = some s') :
    s'.pc = s.pc ∧ s'.fetch_reg = s.fetch_reg ∧ s'.decode_reg = s.decode_reg ∧
    s'.instructions = s.instructions ∧ s'.alu = s.alu ∧
    s'.waiting_for_input = s.waiting_for_input ∧ s'.input_register = s.input_register ∧
    s'.execute_reg = s.execute_reg := by
  simp only [write_back_stage] at h
  repeat' split at h
  all_goals first
    | exact Option.noConfusion h
    | (injection h with h; subst h; exact ⟨rfl, rfl, rfl, rfl, rfl, rfl, rfl, rfl⟩)

lemma wb_sp {s s' : Emulator} (h : write_back_stage s = some s')
    (h0 : 0 ≤ s.sp) (h15 : s.sp ≤ 15) : 0 ≤ s'.sp ∧ s'.sp ≤ 15 := by
  simp only [write_back_stage] at h
  repeat' split at h
  all_goals first
    | exact Option.noConfusion h
    | (injection h with h; subst h; constructor <;> simp <;> omega)

lemma exec_frame {s s' : Emulator} (h : execute_stage s = some s') :
    s'.decode_reg = s.decode_reg ∧ s'.writeback_reg = s.writeback_reg ∧
    s'.instructions = s.instructions ∧ s'.registers = s.registers ∧
    s'.ram = s.ram ∧ s'.ports_out = s.ports_out := by
  simp only [execute_stage, exec_finish] at h
  repeat' split at h
  all_goals first
    | exact Option.noConfusion h
    | (injection h with h; subst h; exact ⟨rfl, rfl, rfl, rfl, rfl, rfl⟩)

lemma exec_sp {s s' : Emulator} (h : execute_stage s = some s')
    (h0 : 0 ≤ s.sp) (h15 : s.sp ≤ 15) : 0 ≤ s'.sp ∧ s'.sp ≤ 15 := by
  simp only [execute_stage, exec_finish] at h
  repeat' split at h
  all_goals first
    | exact Option.noConfusion h
    | (injection h with h; subst h; constructor <;> simp <;> omega)

lemma exec_fetch {s s' : Emulator} (h : execute_stage s = some s') :
    s'.fetch_reg = s.fetch_reg ∨ s'.fetch_reg = Instruction.none := by
  simp only [execute_stage, exec_finish] at h
  repeat' split at h
  all_goals first
    | exact Option.noConfusion h
    | (injection h with h; subst h; first | exact Or.inl rfl | exact Or.inr rfl)

lemma branchOK_none : branchOK Instruction.none := fun hm => absurd hm (by decide)

lemma branch_cond_mem {op : Operation} {f1 f2 f3 f4 : Bool}
    (hc : op = Operation.JMP ∨ op = Operation.CALL ∨ (op = Operation.BIE ∧ f1 = true) ∨
      (op = Operation.BIG ∧ f2 = true) ∨ (op = Operation.BIO ∧ f3 = true) ∨
      (op = Operation.BIL ∧ f4 = true)) : op ∈ branchOps := by
  rcases hc with h | h | ⟨h, _⟩ | ⟨h, _⟩ | ⟨h, _⟩ | ⟨h, _⟩ <;> subst h <;> simp [branchOps]

/-- After a successful execute stage, `pc` is at least -1 provided the decode
latch carried a safe branch target (RET targets come from RAM and are
non-negative). -/
lemma exec_pc_lower {s s' : Emulator} (h : execute_stage s = some s')
    (hok : branchOK s.decode_reg) (hpc : 0 ≤ s.pc) : -1 ≤ s'.pc := by
  simp only [execute_stage, exec_finish] at h
  repeat' split at h
  all_goals try exact Option.noConfusion h
  all_goals (injection h with h; subst h; dsimp only)
  all_goals first
    | omega
    | exact hok (branch_cond_mem (of_decide_eq_true (by assumption)))

/-- The pc produced by the execute stage: the execute latch's A operand on a
taken branch, unchanged otherwise. -/
lemma exec_pc_eq {s s' : Emulator} (h : execute_stage s = some s') :
    s'.pc = (if takes_branch s = true then s'.execute_reg.a.data else s.pc) := by
  simp only [execute_stage, exec_finish] at h
  repeat' split at h
  all_goals try exact Option.noConfusion h
  all_goals (injection h with h; subst h; dsimp only)
  all_goals first
    | exact absurd trivial (by assumption)
    | simp [takes_branch, *]

lemma clock_tail_pc (s2 : Emulator) :
    (clock_tail s2).pc = if s2.pc + 1 ≥ 255 then 0 else s2.pc + 1 := rfl

lemma clock_tail_fetch (s2 : Emulator) :
    (clock_tail s2).fetch_reg = fetchAt s2.instructions s2.pc := rfl

lemma clock_tail_decode (s2 : Emulator) : (clock_tail s2).decode_reg = s2.fetch_reg := rfl

lemma clock_tail_sp (s2 : Emulator) : (clock_tail s2).sp = s2.sp := rfl

lemma clock_tail_instructions (s2 : Emulator) :
    (clock_tail s2).instructions = s2.instructions := rfl

lemma clock_tail_exec (s2 : Emulator) : (clock_tail s2).execute_reg = s2.execute_reg := rfl

lemma clock_tail_regs (s2 : Emulator) :
    (clock_tail s2).registers = s2.registers.end_cycle := rfl

/-- Decomposition of a successful `clock` call. -/
lemma clock_cases {s s' : Emulator} (h : clock s = some s') :
    (s.waiting_for_input = true ∧ s' = s) ∨
    (s.waiting_for_input = false ∧ ∃ s1 s2,
      write_back_stage { s with registers := s.registers.begin_cycle } = some s1 ∧
      execute_stage s1 = some s2 ∧ s' = clock_tail s2) := by
  simp only [clock] at h
  split at h
  · exact Or.inl ⟨by assumption, (Option.some.inj h).symm⟩
  · rename_i hw
    refine Or.inr ⟨by simpa using hw, ?_⟩
    split at h
    · exact Option.noConfusion h
    · rename_i s1 h1
      split at h
      · exact Option.noConfusion h
      · rename_i s2 h2
        exact ⟨s1, s2, h1, h2, (Option.some.inj h).symm⟩

lemma resolve_frame (s : Emulator) (v : Int) :
    (resolve_input s v).pc = s.pc ∧ (resolve_input s v).sp = s.sp ∧
    (resolve_input s v).instructions = s.instructions ∧
    (resolve_input s v).fetch_reg = s.fetch_reg ∧
    (resolve_input s v).decode_reg = s.decode_reg ∧
    (resolve_input s v).execute_reg = s.execute_reg ∧
    (resolve_input s v).registers = s.registers ∧
    (resolve_input s v).ram = s.ram ∧
    (resolve_input s v).ports_out = s.ports_out := by
  unfold resolve_input
  split <;> exact ⟨rfl, rfl, rfl, rfl, rfl, rfl, rfl, rfl, rfl⟩

lemma clock_of_waiting {s : Emulator} (h : s.waiting_for_input = true) :
    clock s = some s := by
  unfold clock; rw [if_pos h]

lemma clockN_of_waiting {s : Emulator} (h : s.waiting_for_input = true) (n : Nat) :
    clockN n s = some s := by
  induction n with
  | zero => rfl
  | succ n ih => simp only [clockN, clock_of_waiting h]; exact ih

/-- Induction over reachable states. -/
lemma reach_inv {P : Emulator → Prop} {e : Emulator}
    (hinit : P e)
    (hclock : ∀ s s', P s → clock s = some s' → P s')
    (hres : ∀ s v, P s → P (resolve_input s v)) :
    ∀ s, Reachable e s → P s := by
  intro s hr
  induction hr with
  | refl => exact hinit
  | clock hr hc ih => exact hclock _ _ ih hc
  | input v hr ih => exact hres _ v ih

lemma getD_mem_or (il : List Instruction) (n : Nat) (d : Instruction) :
    il.getD n d ∈ il ∨ il.getD n d = d := by
  induction il generalizing n with
  | nil => right; simp [List.getD]
  | cons a t ih =>
    cases n with
    | zero => left; simp [List.getD]
    | succ m =>
      have he : (a :: t).getD (m + 1) d = t.getD m d := by simp [List.getD]
      rw [he]
      rcases ih m with hm | hm
      · exact Or.inl (List.mem_cons_of_mem _ hm)
      · exact Or.inr hm

lemma fetchAt_ok (P : Instruction → Prop) (il : List Instruction)
    (hIl : ∀ i ∈ il, P i) (hN : P Instruction.none) (pc : Int) : P (fetchAt il pc) := by
  unfold fetchAt
  split
  · rcases getD_mem_or il pc.toNat Instruction.none with hm | he
    · exact hIl _ hm
    · rw [he]; exact hN
  · exact hN

/-!
## Claim theorems
-/

/-- C9: register 0 is a hard-wired zero.  In any register-file state, reading
index 0 yields 0; a write with index `≤ 0` or `≥ 8` is silently discarded
(the register file is unchanged); a read with index `≤ 0` or `> 7` yields 0.
Consequently every operation preserves `registers.read 0 = 0`. -/
theorem C9_zero_register (r : Registers) (i : Int) (d : Nat) :
    r.read 0 = 0 ∧
    ((i ≤ 0 ∨ 8 ≤ i) → r.write i d = r) ∧
    ((i ≤ 0 ∨ 7 < i) → r.read i = 0) := by
  refine ⟨rfl, fun h => ?_, fun h => ?_⟩
  · have hn : ¬(i > 0 ∧ i < 8) := by omega
    simp [Registers.write, hn]
  · have hp : i ≤ 0 ∨ i > 7 := by omega
    simp [Registers.read, hp]

/-- Witness for C9 at a concrete register file and index. -/
theorem C9_zero_register_witness :
    Registers.new.read 0 = 0 ∧ Registers.new.write 9 5 = Registers.new ∧
    Registers.new.read 9 = 0 :=
  ⟨(C9_zero_register Registers.new 9 5).1,
   (C9_zero_register Registers.new 9 5).2.1 (Or.inr (by norm_num)),
   (C9_zero_register Registers.new 9 5).2.2 (Or.inr (by norm_num))⟩

/-- C10: `resolve_input` on a state that is not waiting for input is the
identity on the whole emulator state. -/
theorem C10_resolve_input_frame (s : Emulator) (v : Int)
    (h : s.waiting_for_input = false) : resolve_input s v = s := by
  simp [resolve_input, h]

/-- Witness for C10 at a concrete state (a fresh emulator is not waiting). -/
theorem C10_resolve_input_frame_witness :
    resolve_input (Emulator.withProgram []) 5 = Emulator.withProgram [] :=
  C10_resolve_input_frame (Emulator.withProgram []) 5 rfl

/-- C1 evaluated at the failing input: the program `OUT %-1 R1` is
parse-accepted (no errors), survives three clock ticks, and on the fourth
tick — the writeback of the OUT — the Rust code indexes `ports_out` with
`(-1) as usize` and panics (modelled as `none`) instead of dropping the
write as the claim states. -/
theorem C1_negative_index_panics :
    (Emulator.new ("OUT %-1 R1")).errors = [] ∧
    (clockN 3 (Emulator.new ("OUT %-1 R1"))).isSome = true ∧
    clockN 4 (Emulator.new ("OUT %-1 R1")) = Option.none :=
  ⟨rfl, rfl, rfl⟩

/-- C2 counterexample: the parse-accepted program `JMP -5` reaches, after the
third `clock()` returns, a state whose pc is -4, outside `[0, 254]`. -/
theorem C2_counterexample :
    (Emulator.new ("JMP -5")).errors = [] ∧
    (clockN 3 (Emulator.new ("JMP -5"))).isSome = true ∧
    ((clockN 3 (Emulator.new ("JMP -5"))).getD (Emulator.withProgram [])).pc = -4 :=
  ⟨rfl, rfl, rfl⟩

/-- C8: for `INP R3`, after the INP reaches the execute stage (tick 3) the
wait flag is set and register index 3 recorded; every further `clock()` is an
identity for any number of calls; `resolve_input 42` writes 42 to the
accumulator and clears the flag; the next `clock()` completes writeback and
register 3 reads 42. -/
theorem C8_input_blocking :
    clockN 3 inpEmu = some inpStalled ∧
    inpStalled.waiting_for_input = true ∧
    inpStalled.input_register = 3 ∧
    (∀ n : Nat, clockN n inpStalled = some inpStalled) ∧
    (resolve_input inpStalled 42).alu.accumulator = 42 ∧
    (resolve_input inpStalled 42).waiting_for_input = false ∧
    (clock (resolve_input inpStalled 42)).isSome = true ∧
    ((clock (resolve_input inpStalled 42)).getD (Emulator.withProgram [])).registers.read 3
      = 42 :=
  ⟨rfl, rfl, rfl, clockN_of_waiting rfl, rfl, rfl, rfl, rfl⟩

/-- C3: for the arithmetic/logical operations (ADD, ADDC, SUB, OR, XOR, AND,
SHR, NOT) the ALU sets the flags from the two input bytes — `a_data` is the
accumulator under arg-prefix U/X and the register selected by operand A
otherwise, `b_data` the register selected by operand B — with
equals/greater/less unsigned comparisons of the inputs (not the result),
overflow exactly when the result lies outside `[0, 255]` (ADDC's result adds
1 exactly when the previous overflow flag was set), and the accumulator set
to `result & 0xFF`; operations outside this set leave flags and accumulator
unchanged. -/
theorem C3_alu_flags (alu : ALU) (registers : Registers) (instr : Instruction)
    (ir : Int) (w : Bool) (x y : Nat) :
    (is_alu_op instr.operation = true →
      (ALU.execute alu registers instr ir w).1.flags.equals
          = decide (alu_a_data alu registers instr = registers.read instr.b.data) ∧
      (ALU.execute alu registers instr ir w).1.flags.greater
          = decide (registers.read instr.b.data < alu_a_data alu registers instr) ∧
      (ALU.execute alu registers instr ir w).1.flags.less
          = decide (alu_a_data alu registers instr < registers.read instr.b.data) ∧
      (ALU.execute alu registers instr ir w).1.flags.overflow
          = decide (¬ (0 ≤ alu_result alu (alu_a_data alu registers instr)
                (registers.read instr.b.data) instr.operation ∧
              alu_result alu (alu_a_data alu registers instr)
                (registers.read instr.b.data) instr.operation ≤ 255)) ∧
      (ALU.execute alu registers instr ir w).1.accumulator
          = (alu_result alu (alu_a_data alu registers instr)
              (registers.read instr.b.data) instr.operation % 256).toNat) ∧
    (alu_a_data alu registers instr =
      if instr.args = OperationArgs.U ∨ instr.args = OperationArgs.X then alu.accumulator
      else registers.read instr.a.data) ∧
    (alu_result alu x y Operation.ADDC
      = (x : Int) + (y : Int) + (if alu.flags.overflow = true then 1 else 0)) ∧
    (is_alu_op instr.operation = false →
      (ALU.execute alu registers instr ir w).1 = alu) := by
  refine ⟨fun h => ?_, rfl, ?_, fun h => ?_⟩
  · simp [ALU.execute, h]
  · simp [alu_result]
  · simp [ALU.execute, h]

/-- Witness for C3: the ALU case at `ADD R1 R2` on a fresh state, and the
frame case at `JMP 0`. -/
theorem C3_alu_flags_witness :
    (ALU.execute ALU.new Registers.new aluAddInstr 0 false).1.accumulator
        = (alu_result ALU.new (alu_a_data ALU.new Registers.new aluAddInstr)
            (Registers.new.read aluAddInstr.b.data) aluAddInstr.operation % 256).toNat ∧
    (ALU.execute ALU.new Registers.new aluJmpInstr 0 false).1 = ALU.new :=
  ⟨((C3_alu_flags ALU.new Registers.new aluAddInstr 0 false 0 0).1 rfl).2.2.2.2,
   (C3_alu_flags ALU.new Registers.new aluJmpInstr 0 false 0 0).2.2.2 rfl⟩

lemma gw_iff (i : Instruction) (w : Int) :
    Parser.get_write_register i = some w ↔
      (i.a.type_ = OperandType.Register ∧
        (i.operation ∈ [Operation.IMM, Operation.MOV, Operation.LOAD, Operation.POP,
            Operation.INP, Operation.SHR, Operation.NOT] ∨
          (i.operation ∈ [Operation.ADD, Operation.ADDC, Operation.SUB, Operation.OR,
              Operation.XOR, Operation.AND] ∧ ¬ i.args = OperationArgs.X)) ∧
        w = i.a.data) := by
  obtain ⟨op, args, ⟨ta, da⟩, b, ad, sl⟩ := i
  cases ta <;> cases op <;> cases args <;>
    simp [Parser.get_write_register, eq_comm]

lemma grA_mem (i : Instruction) (x : Int) :
    x ∈ Parser.reads_a i ↔
      (i.a.type_ = OperandType.Register ∧ x = i.a.data ∧
        ((i.operation ∈ [Operation.ADD, Operation.ADDC, Operation.SUB, Operation.OR,
            Operation.XOR, Operation.AND] ∧ ¬ i.args = OperationArgs.U ∧
            ¬ i.args = OperationArgs.X) ∨
          i.operation = Operation.PUSH ∨ i.operation = Operation.ROUT)) := by
  obtain ⟨op, args, ⟨ta, da⟩, b, ad, sl⟩ := i
  cases ta <;> cases op <;> cases args <;> simp [Parser.reads_a, eq_comm]

lemma grB_mem (i : Instruction) (x : Int) :
    x ∈ Parser.reads_b i ↔
      (i.b.type_ = OperandType.Register ∧ x = i.b.data ∧
        i.operation ∈ [Operation.MOV, Operation.ADD, Operation.ADDC, Operation.SUB,
          Operation.AND, Operation.OR, Operation.XOR, Operation.SHR, Operation.NOT,
          Operation.OUT, Operation.ROUT, Operation.STORE]) := by
  obtain ⟨op, args, a, ⟨tb, db⟩, ad, sl⟩ := i
  cases tb <;> cases op <;> simp [Parser.reads_b, eq_comm]

lemma gr_mem (i : Instruction) (x : Int) :
    x ∈ Parser.get_read_registers i ↔
      ((i.a.type_ = OperandType.Register ∧ x = i.a.data ∧
          ((i.operation ∈ [Operation.ADD, Operation.ADDC, Operation.SUB, Operation.OR,
              Operation.XOR, Operation.AND] ∧ ¬ i.args = OperationArgs.U ∧
              ¬ i.args = OperationArgs.X) ∨
            i.operation = Operation.PUSH ∨ i.operation = Operation.ROUT)) ∨
        (i.b.type_ = OperandType.Register ∧ x = i.b.data ∧
          i.operation ∈ [Operation.MOV, Operation.ADD, Operation.ADDC, Operation.SUB,
            Operation.AND, Operation.OR, Operation.XOR, Operation.SHR, Operation.NOT,
            Operation.OUT, Operation.ROUT, Operation.STORE])) := by
  rw [show Parser.get_read_registers i = Parser.reads_a i ++ Parser.reads_b i from rfl,
    List.mem_append, grA_mem, grB_mem]

/-- C4: the parser's RAW-hazard check fires for a pair of consecutively
emitted instructions exactly under the claim's writer/reader condition; on
`IMM R1 5 / ADD R2 R1` exactly one RAW warning (naming R1 on line 2) is
emitted, and none with a NOOP in between or with `XADD`. -/
theorem C4_raw_hazard :
    (∀ prev cur, (Parser.rawHazardOpt prev cur).isSome = true ↔ hazardSpec prev cur) ∧
    (Parser.parse ("IMM R1 5\nADD R2 R1")).2.2 = [Parser.rawMsg 2 1] ∧
    (Parser.parse ("IMM R1 5\nNOOP\nADD R2 R1")).2.2 = [] ∧
    (Parser.parse ("IMM R1 5\nXADD R2 R1")).2.2 = [] := by
  refine ⟨fun prev cur => ?_, rfl, rfl, rfl⟩
  unfold Parser.rawHazardOpt hazardSpec
  cases hw : Parser.get_write_register prev with
  | none =>
    simp only [Option.isSome_none, Bool.false_eq_true, false_iff]
    rintro ⟨h1, h2, _⟩
    have hs := (gw_iff prev prev.a.data).mpr ⟨h1, h2, rfl⟩
    rw [hw] at hs
    exact Option.noConfusion hs
  | some w =>
    obtain ⟨h1, h2, h3⟩ := (gw_iff prev w).mp hw
    have hiff := gr_mem cur w
    by_cases hm : w ∈ Parser.get_read_registers cur
    · simp only [if_pos hm, Option.isSome_some, true_iff]
      refine ⟨h1, h2, ?_⟩
      rcases hiff.mp hm with ⟨ha1, ha2, ha3⟩ | ⟨hb1, hb2, hb3⟩
      · exact Or.inl ⟨ha1, by rw [← h3]; exact ha2, ha3⟩
      · exact Or.inr ⟨hb1, by rw [← h3]; exact hb2, hb3⟩
    · simp only [if_neg hm, Option.isSome_none, Bool.false_eq_true, false_iff]
      rintro ⟨_, _, hspec⟩
      apply hm
      rcases hspec with ⟨ha1, ha2, ha3⟩ | ⟨hb1, hb2, hb3⟩
      · exact hiff.mpr (Or.inl ⟨ha1, by rw [h3]; exact ha2, ha3⟩)
      · exact hiff.mpr (Or.inr ⟨hb1, by rw [h3]; exact hb2, hb3⟩)

/-- Witness for C4: the hazard fires on the parsed pair `IMM R1 5 / ADD R2 R1`. -/
theorem C4_raw_hazard_witness :
    (Parser.rawHazardOpt immR1I5 addR2R1).isSome = true :=
  (C4_raw_hazard.1 immR1I5 addR2R1).mpr (by unfold hazardSpec immR1I5 addR2R1; decide)

/-- C5 counterexample: `ZADD` is not a mnemonic, its first letter `Z` is
outside `{S, U, X}`, its remainder `ADD` is a valid mnemonic — yet parsing it
is an error, where the claim says it is not. -/
theorem C5_counterexample :
    Parser.match_op ('Z' :: Parser.strL ("ADD")) = Option.none ∧
    Parser.match_op (Parser.strL ("ADD")) = some Operation.ADD ∧
    Parser.parse_operation ('Z' :: Parser.strL ("ADD"))
      = Except.error ("Invalid operation: ZADD") :=
  ⟨rfl, rfl, rfl⟩

/-- C5 (amended): for a non-empty operation token that is not itself a valid
mnemonic, if its first letter is `S`, `U` or `X` and the remainder is a valid
mnemonic it parses with the corresponding arg-prefix; with any other first
letter parsing is always an error (whether or not the remainder is a valid
mnemonic); and it is also an error when the remainder is not a valid
mnemonic. -/
theorem C5_prefix_parsing (first : Char) (rest : List Char)
    (hnm : Parser.match_op (first :: rest) = Option.none) :
    (∀ op, Parser.match_op rest = some op →
      (first = 'S' →
        Parser.parse_operation (first :: rest) = Except.ok (op, OperationArgs.S)) ∧
      (first = 'U' →
        Parser.parse_operation (first :: rest) = Except.ok (op, OperationArgs.U)) ∧
      (first = 'X' →
        Parser.parse_operation (first :: rest) = Except.ok (op, OperationArgs.X)) ∧
      (¬ first = 'S' → ¬ first = 'U' → ¬ first = 'X' →
        Parser.parse_operation (first :: rest)
          = Except.error (("Invalid operation: ") ++ String.mk (first :: rest)))) ∧
    (Parser.match_op rest = Option.none →
      Parser.parse_operation (first :: rest)
        = Except.error (("Invalid operation: ") ++ String.mk (first :: rest))) := by
  constructor
  · intro op hop
    refine ⟨fun h => ?_, fun h => ?_, fun h => ?_, fun h1 h2 h3 => ?_⟩
    · subst h; simp [Parser.parse_operation, hnm, hop]
    · subst h; simp [Parser.parse_operation, hnm, hop]
    · subst h; simp [Parser.parse_operation, hnm, hop]
    · simp [Parser.parse_operation, hnm, hop, h1, h2, h3]
  · intro hop
    simp [Parser.parse_operation, hnm, hop]

/-- Witness for C5 at the concrete token `UADD`. -/
theorem C5_prefix_parsing_witness :
    Parser.parse_operation ('U' :: Parser.strL ("ADD"))
      = Except.ok (Operation.ADD, OperationArgs.U) :=
  ((C5_prefix_parsing 'U' (Parser.strL ("ADD")) rfl).1 Operation.ADD rfl).2.1 rfl

lemma wb_push_behavior {s : Emulator} (hop : s.execute_reg.operation = Operation.PUSH)
    (h0 : 0 ≤ s.sp) (h15 : s.sp ≤ 15) :
    ∃ s', write_back_stage s = some s' ∧
      s'.ram = setCell s.ram s.sp (s.registers.read s.execute_reg.a.data) ∧
      s'.sp = (if s.sp = 0 then 15 else s.sp - 1) := by
  have h16 : s.sp < 16 := by omega
  simp only [write_back_stage, hop, if_pos h0, if_pos h16]
  refine ⟨_, rfl, rfl, ?_⟩
  simp only
  split <;> split <;> omega

lemma wb_call_behavior {s : Emulator} (hop : s.execute_reg.operation = Operation.CALL)
    (h0 : 0 ≤ s.sp) (h15 : s.sp ≤ 15) :
    ∃ s', write_back_stage s = some s' ∧
      s'.ram = setCell s.ram s.sp (((s.execute_reg.address + 1) % 256).toNat) ∧
      s'.sp = (if s.sp = 0 then 15 else s.sp - 1) := by
  have h16 : s.sp < 16 := by omega
  simp only [write_back_stage, hop, if_pos h0, if_pos h16]
  refine ⟨_, rfl, rfl, ?_⟩
  simp only
  split <;> split <;> omega

lemma wb_pop_behavior {s : Emulator} (hop : s.execute_reg.operation = Operation.POP)
    (h0 : 0 ≤ s.sp) (h15 : s.sp ≤ 15) :
    ∃ s', write_back_stage s = some s' ∧
      s'.sp = (if s.sp = 15 then 0 else s.sp + 1) ∧
      s'.registers = s.registers.write s.execute_reg.a.data
        (s.ram (if s.sp = 15 then 0 else s.sp + 1)) := by
  have hwrap : (if s.sp + 1 > 15 then 0 else s.sp + 1)
      = (if s.sp = 15 then 0 else s.sp + 1) := by
    split <;> split <;> omega
  have hguard : 0 ≤ (if s.sp + 1 > 15 then 0 else s.sp + 1) ∧
      (if s.sp + 1 > 15 then 0 else s.sp + 1) < 16 := by
    split <;> omega
  have key : write_back_stage s = some
      { s with
          writeback_reg := s.execute_reg
          sp := if s.sp + 1 > 15 then 0 else s.sp + 1
          registers := s.registers.write s.execute_reg.a.data
            (s.ram (if s.sp + 1 > 15 then 0 else s.sp + 1)) } := by
    simp only [write_back_stage, hop]
    rw [if_pos hguard]
  refine ⟨_, key, ?_, ?_⟩
  · exact hwrap
  · rw [← hwrap]

lemma exec_ret_behavior {s : Emulator} (hop : s.decode_reg.operation = Operation.RET)
    (h0 : 0 ≤ s.sp) (h15 : s.sp ≤ 15) :
    ∃ s', execute_stage s = some s' ∧
      s'.sp = (if s.sp = 15 then 0 else s.sp + 1) ∧
      s'.pc = (s.ram (if s.sp = 15 then 0 else s.sp + 1) : Int) := by
  have hwrap : (if s.sp + 1 > 15 then 0 else s.sp + 1)
      = (if s.sp = 15 then 0 else s.sp + 1) := by
    split <;> split <;> omega
  have hguard : 0 ≤ (if s.sp + 1 > 15 then 0 else s.sp + 1) ∧
      (if s.sp + 1 > 15 then 0 else s.sp + 1) < 16 := by
    split <;> omega
  have key : execute_stage s = some (exec_finish
      { s with
          execute_reg :=
            { s.decode_reg with
                a := { s.decode_reg.a with
                  data := (s.ram (if s.sp + 1 > 15 then 0 else s.sp + 1) : Int) } }
          sp := if s.sp + 1 > 15 then 0 else s.sp + 1 } true) := by
    simp only [execute_stage, exec_finish, hop]
    rw [if_pos trivial, if_pos hguard]
  refine ⟨_, key, ?_, ?_⟩
  · exact hwrap
  · rw [← hwrap]
    rfl

/-- C7: in every reachable state the stack pointer lies in `[0, 15]`; it
starts at 15; PUSH and CALL write `ram[sp]` and then decrement `sp`, wrapping
0 to 15; POP (in writeback) and RET (in execute) increment `sp`, wrapping 15
to 0, and then read `ram[sp]` (POP into the destination register, RET into
the pc as branch target). -/
theorem C7_sp_invariant (code : String) :
    (Emulator.new code).sp = 15 ∧
    (∀ s, Reachable (Emulator.new code) s → 0 ≤ s.sp ∧ s.sp ≤ 15) ∧
    (∀ s : Emulator, s.execute_reg.operation = Operation.PUSH → 0 ≤ s.sp → s.sp ≤ 15 →
      ∃ s', write_back_stage s = some s' ∧
        s'.ram = setCell s.ram s.sp (s.registers.read s.execute_reg.a.data) ∧
        s'.sp = (if s.sp = 0 then 15 else s.sp - 1)) ∧
    (∀ s : Emulator, s.execute_reg.operation = Operation.CALL → 0 ≤ s.sp → s.sp ≤ 15 →
      ∃ s', write_back_stage s = some s' ∧
        s'.ram = setCell s.ram s.sp (((s.execute_reg.address + 1) % 256).toNat) ∧
        s'.sp = (if s.sp = 0 then 15 else s.sp - 1)) ∧
    (∀ s : Emulator, s.execute_reg.operation = Operation.POP → 0 ≤ s.sp → s.sp ≤ 15 →
      ∃ s', write_back_stage s = some s' ∧
        s'.sp = (if s.sp = 15 then 0 else s.sp + 1) ∧
        s'.registers = s.registers.write s.execute_reg.a.data
          (s.ram (if s.sp = 15 then 0 else s.sp + 1))) ∧
    (∀ s : Emulator, s.decode_reg.operation = Operation.RET → 0 ≤ s.sp → s.sp ≤ 15 →
      ∃ s', execute_stage s = some s' ∧
        s'.sp = (if s.sp = 15 then 0 else s.sp + 1) ∧
        s'.pc = (s.ram (if s.sp = 15 then 0 else s.sp + 1) : Int)) := by
  refine ⟨rfl, ?_,
    fun s hop h0 h15 => wb_push_behavior hop h0 h15,
    fun s hop h0 h15 => wb_call_behavior hop h0 h15,
    fun s hop h0 h15 => wb_pop_behavior hop h0 h15,
    fun s hop h0 h15 => exec_ret_behavior hop h0 h15⟩
  intro s hr
  refine reach_inv (P := fun u => 0 ≤ u.sp ∧ u.sp ≤ 15) ?_ ?_ ?_ s hr
  · exact ⟨(by norm_num : (0 : Int) ≤ 15), (by norm_num : (15 : Int) ≤ 15)⟩
  · rintro u u' ⟨h0, h15⟩ hc
    rcases clock_cases hc with ⟨_, rfl⟩ | ⟨hw, s1, s2, h1, h2, rfl⟩
    · exact ⟨h0, h15⟩
    · have hsp1 := wb_sp h1 h0 h15
      have hsp2 := exec_sp h2 hsp1.1 hsp1.2
      rw [clock_tail_sp]
      exact hsp2
  · rintro u v ⟨h0, h15⟩
    rw [(resolve_frame u v).2.1]
    exact ⟨h0, h15⟩

/-- Witness for C7: the initial state of the empty program is reachable and
within bounds, and the PUSH behaviour at a concrete state. -/
theorem C7_sp_invariant_witness :
    (0 ≤ (Emulator.new ("")).sp ∧ (Emulator.new ("")).sp ≤ 15) ∧
    (∃ s', write_back_stage { Emulator.withProgram [] with
        execute_reg := { Instruction.none with
          operation := Operation.PUSH
          a := { type_ := OperandType.Register, data := 1 } } } = some s' ∧
      s'.ram = setCell (Emulator.withProgram []).ram 15 0 ∧
      s'.sp = 14) :=
  ⟨(C7_sp_invariant ("")).2.1 _ Reachable.refl,
   by
    obtain ⟨s', hs, hram, hsp⟩ := (C7_sp_invariant ("")).2.2.1
      { Emulator.withProgram [] with
        execute_reg := { Instruction.none with
          operation := Operation.PUSH
          a := { type_ := OperandType.Register, data := 1 } } }
      rfl (by norm_num : (0 : Int) ≤ 15) (by norm_num : (15 : Int) ≤ 15)
    refine ⟨s', hs, hram, ?_⟩
    rw [hsp]
    norm_num [Emulator.withProgram]⟩

/-- C2 (amended): provided every branch instruction (JMP, CALL, BIE, BIG,
BIL, BIO) of the parse-accepted program carries a target of at least -1 (the
counterexample `JMP -5` shows the bound is violated otherwise), every state
reachable from a freshly loaded emulator has `0 ≤ pc ≤ 254` when `clock()`
returns; within a cycle a taken branch overwrites `pc` with the execute
latch's A operand (for RET, the return address popped into it), and the cycle
then increments `pc`, wrapping to 0 when it reaches 255. -/
theorem C2_pc_invariant (code : String)
    (hT : ∀ i ∈ (Emulator.new code).instructions, branchOK i) :
    (∀ s, Reachable (Emulator.new code) s → 0 ≤ s.pc ∧ s.pc ≤ 254) ∧
    (∀ t t', execute_stage t = some t' →
      t'.pc = (if takes_branch t = true then t'.execute_reg.a.data else t.pc)) ∧
    (∀ t : Emulator, (increment_pc t).pc = if t.pc + 1 ≥ 255 then 0 else t.pc + 1) := by
  refine ⟨?_, fun t t' h => exec_pc_eq h, fun t => rfl⟩
  intro s hr
  refine (reach_inv (P := fun u => u.instructions = (Emulator.new code).instructions ∧
      (0 ≤ u.pc ∧ u.pc ≤ 254) ∧ branchOK u.fetch_reg ∧ branchOK u.decode_reg)
    ?_ ?_ ?_ s hr).2.1
  · exact ⟨rfl, ⟨(by norm_num : (0 : Int) ≤ 0), (by norm_num : (0 : Int) ≤ 254)⟩,
      branchOK_none, branchOK_none⟩
  · rintro u u' ⟨hi, ⟨hp0, hp1⟩, hf, hd⟩ hc
    rcases clock_cases hc with ⟨_, rfl⟩ | ⟨hw, s1, s2, h1, h2, rfl⟩
    · exact ⟨hi, ⟨hp0, hp1⟩, hf, hd⟩
    · obtain ⟨e_pc, e_fetch, e_decode, e_instr, _⟩ := wb_frame h1
      obtain ⟨x_decode, _, x_instr, _⟩ := exec_frame h2
      have hi2 : s2.instructions = (Emulator.new code).instructions := by
        rw [x_instr, e_instr]; exact hi
      have hlow : -1 ≤ s2.pc := by
        refine exec_pc_lower h2 ?_ ?_
        · rw [e_decode]; exact hd
        · rw [e_pc]; exact hp0
      refine ⟨?_, ?_, ?_, ?_⟩
      · rw [clock_tail_instructions]; exact hi2
      · rw [clock_tail_pc]
        constructor <;> (split <;> omega)
      · rw [clock_tail_fetch, hi2]
        exact fetchAt_ok branchOK _ hT branchOK_none s2.pc
      · rw [clock_tail_decode]
        rcases exec_fetch h2 with hh | hh
        · rw [hh, e_fetch]; exact hf
        · rw [hh]; exact branchOK_none
  · rintro u v ⟨hi, hp, hf, hd⟩
    obtain ⟨rpc, _, rinstr, rfetch, rdecode, _⟩ := resolve_frame u v
    exact ⟨by rw [rinstr]; exact hi, by rw [rpc]; exact hp,
      by rw [rfetch]; exact hf, by rw [rdecode]; exact hd⟩

/-- Witness for C2 at the branch-free program `NOOP` and its initial state. -/
theorem C2_pc_invariant_witness :
    0 ≤ (Emulator.new ("NOOP")).pc ∧ (Emulator.new ("NOOP")).pc ≤ 254 :=
  (C2_pc_invariant ("NOOP") (by unfold branchOK; decide)).1 _ Reachable.refl


lemma clockN_succ_left (n : Nat) (s : Emulator) :
    clockN (n + 1) s = (clock s).bind (clockN n) := by
  cases hc : clock s <;> simp [clockN, hc]

lemma clockN_succ_right (n : Nat) (s : Emulator) :
    clockN (n + 1) s = (clockN n s).bind clock := by
  induction n generalizing s with
  | zero => cases hc : clock s <;> simp [clockN, hc]
  | succ n ih =>
    cases hc : clock s
    · simp [clockN, hc]
    · rename_i t
      calc clockN (n + 1 + 1) s = clockN (n + 1) t := by simp [clockN, hc]
        _ = (clockN n t).bind clock := ih t
        _ = (clockN (n + 1) s).bind clock := by simp [clockN, hc]

lemma wb_noop_next {s : Emulator} (h : s.execute_reg.operation = Operation.NOOP) :
    ∃ s', write_back_stage s = some s' ∧ s'.registers = s.registers := by
  refine ⟨{ s with writeback_reg := s.execute_reg }, ?_, rfl⟩
  simp only [write_back_stage, h]

lemma wb_imm_next {s : Emulator} (h : s.execute_reg.operation = Operation.IMM) :
    ∃ s', write_back_stage s = some s' ∧
      s'.registers = s.registers.write s.execute_reg.a.data
        ((s.execute_reg.b.data % 256).toNat) := by
  have key : write_back_stage s = some
      { s with
          writeback_reg := s.execute_reg
          registers := s.registers.write s.execute_reg.a.data
            ((s.execute_reg.b.data % 256).toNat) } := by
    simp only [write_back_stage, h]
  exact ⟨_, key, rfl⟩

lemma exec_keep {s : Emulator}
    (hop : s.decode_reg.operation = Operation.NOOP ∨
      s.decode_reg.operation = Operation.IMM) :
    ∃ s', execute_stage s = some s' ∧ s'.execute_reg = s.decode_reg ∧
      s'.fetch_reg = s.fetch_reg ∧ s'.pc = s.pc ∧
      s'.waiting_for_input = s.waiting_for_input ∧ s'.registers = s.registers ∧
      s'.instructions = s.instructions := by
  refine ⟨{ s with execute_reg := s.decode_reg }, ?_, rfl, rfl, rfl, rfl, rfl, rfl⟩
  rcases hop with h | h <;> simp [execute_stage, exec_finish, h, ALU.execute, is_alu_op]

lemma write_read_regs (R : Registers) (r : Int) (d : Nat)
    (hr0 : 0 < r) (hr8 : r < 8) : (R.write r d).next_regs r = d := by
  simp [Registers.write, if_pos (⟨hr0, hr8⟩ : r > 0 ∧ r < 8)]

lemma latchOK6_none (r v : Int) : latchOK6 r v Instruction.none := Or.inl rfl

lemma prog_latchOK (r v : Int) : ∀ i ∈ progC6 r v, latchOK6 r v i := by
  intro i hi
  simp only [progC6, List.mem_cons, List.not_mem_nil, or_false] at hi
  rcases hi with h | h | h | h | h <;> subst h
  · exact Or.inr rfl
  all_goals exact Or.inl rfl

/-- One tick of the C6 program: any state whose decode and execute latches
hold NOOPs or the IMM instruction steps without a panic, the latches shift
down the pipeline, and register `r` receives the IMM's value exactly when the
IMM sits in the execute latch (writeback happens one stage later but within
the same reverse-evaluated tick). -/
lemma c6_step {r v : Int} (hr0 : 0 < r) (hr8 : r < 8) {s : Emulator}
    (hI : s.instructions = progC6 r v) (hw : s.waiting_for_input = false)
    (hd : latchOK6 r v s.decode_reg) (he : latchOK6 r v s.execute_reg) :
    ∃ s', clock s = some s' ∧ s'.instructions = progC6 r v ∧
      s'.waiting_for_input = false ∧
      s'.fetch_reg = fetchAt (progC6 r v) s.pc ∧
      s'.decode_reg = s.fetch_reg ∧
      s'.execute_reg = s.decode_reg ∧
      s'.pc = (if s.pc + 1 ≥ 255 then 0 else s.pc + 1) ∧
      s'.registers.regs r =
        (if s.execute_reg.operation = Operation.IMM then (v % 256).toNat
         else s.registers.regs r) := by
  have hnw : ¬ (s.waiting_for_input = true) := by rw [hw]; exact Bool.false_ne_true
  have hdop : s.decode_reg.operation = Operation.NOOP ∨
      s.decode_reg.operation = Operation.IMM := by
    rcases hd with h | h
    · exact Or.inl h
    · exact Or.inr (by rw [h]; rfl)
  rcases he with hno | him
  · obtain ⟨s1, h1, hreg1⟩ :=
      wb_noop_next (s := { s with registers := s.registers.begin_cycle }) hno
    obtain ⟨f_pc, f_fetch, f_decode, f_instr, f_alu, f_wait, f_input, f_exec⟩ := wb_frame h1
    obtain ⟨s2, h2, x_exec, x_fetch, x_pc, x_wait, x_regs, x_instr⟩ :=
      exec_keep (s := s1) (by rw [f_decode]; exact hdop)
    have hclock : clock s = some (clock_tail s2) := by
      unfold clock
      rw [if_neg hnw, h1]
      dsimp only
      rw [h2]
    refine ⟨clock_tail s2, hclock, ?_, ?_, ?_, ?_, ?_, ?_, ?_⟩
    · rw [clock_tail_instructions, x_instr, f_instr]; exact hI
    · show s2.waiting_for_input = false
      rw [x_wait, f_wait]; exact hw
    · rw [clock_tail_fetch, x_instr, f_instr, hI, x_pc, f_pc]
    · rw [clock_tail_decode, x_fetch, f_fetch]
    · rw [clock_tail_exec, x_exec, f_decode]
    · rw [clock_tail_pc, x_pc, f_pc]
    · rw [hno, if_neg (by decide : ¬ (Operation.NOOP = Operation.IMM))]
      rw [clock_tail_regs, x_regs, hreg1]
      rfl
  · have hopi : s.execute_reg.operation = Operation.IMM := by rw [him]; rfl
    obtain ⟨s1, h1, hreg1⟩ :=
      wb_imm_next (s := { s with registers := s.registers.begin_cycle }) hopi
    obtain ⟨f_pc, f_fetch, f_decode, f_instr, f_alu, f_wait, f_input, f_exec⟩ := wb_frame h1
    obtain ⟨s2, h2, x_exec, x_fetch, x_pc, x_wait, x_regs, x_instr⟩ :=
      exec_keep (s := s1) (by rw [f_decode]; exact hdop)
    have hclock : clock s = some (clock_tail s2) := by
      unfold clock
      rw [if_neg hnw, h1]
      dsimp only
      rw [h2]
    refine ⟨clock_tail s2, hclock, ?_, ?_, ?_, ?_, ?_, ?_, ?_⟩
    · rw [clock_tail_instructions, x_instr, f_instr]; exact hI
    · show s2.waiting_for_input = false
      rw [x_wait, f_wait]; exact hw
    · rw [clock_tail_fetch, x_instr, f_instr, hI, x_pc, f_pc]
    · rw [clock_tail_decode, x_fetch, f_fetch]
    · rw [clock_tail_exec, x_exec, f_decode]
    · rw [clock_tail_pc, x_pc, f_pc]
    · rw [hopi, if_pos rfl]
      rw [clock_tail_regs, x_regs, hreg1]
      dsimp only
      rw [him]
      exact write_read_regs _ r _ hr0 hr8


/-- The parser emits exactly the C6 program for its source text. -/
theorem progC6_parses :
    Parser.parse ("IMM R3 200\nNOOP\nNOOP\nNOOP\nNOOP") = (progC6 3 200, [], []) := rfl

/-- C6: for every register `r ∈ [1,7]`, byte `v` and `n ≥ 4`, running
`IMM r v` followed by four NOOPs from a fresh emulator for `n` ticks
succeeds and leaves register `r` holding `v`: the IMM traverses fetch,
decode, execute and writeback on successive ticks and the write becomes
visible at the cycle boundary of the writeback tick. -/
theorem C6_imm_latency (r v : Int) (n : Nat) (hr1 : 1 ≤ r) (hr7 : r ≤ 7)
    (hv0 : 0 ≤ v) (hv : v ≤ 255) (hn : 4 ≤ n) :
    ∃ s, clockN n (Emulator.withProgram (progC6 r v)) = some s ∧
      (s.registers.read r : Int) = v := by
  have hr0 : 0 < r := hr1
  have hr8 : r < 8 := by omega
  obtain ⟨k, rfl⟩ := Nat.exists_eq_add_of_le hn
  suffices h : ∃ s, clockN (4 + k) (Emulator.withProgram (progC6 r v)) = some s ∧
      s.instructions = progC6 r v ∧ s.waiting_for_input = false ∧
      latchOK6 r v s.fetch_reg ∧ latchOK6 r v s.decode_reg ∧
      latchOK6 r v s.execute_reg ∧
      s.registers.regs r = (v % 256).toNat by
    obtain ⟨s, hs, _, _, _, _, _, hregs⟩ := h
    refine ⟨s, hs, ?_⟩
    have hread : s.registers.read r = (v % 256).toNat := by
      unfold Registers.read
      rw [if_neg (by omega : ¬ (r ≤ 0 ∨ r > 7))]
      exact hregs
    rw [hread, Int.toNat_of_nonneg (Int.emod_nonneg v (by norm_num))]
    exact Int.emod_eq_of_lt hv0 (by omega)
  clear hn
  induction k with
  | zero =>
    obtain ⟨s1, c1, i1, w1, f1, d1, x1, p1, g1⟩ :=
      c6_step hr0 hr8 (s := Emulator.withProgram (progC6 r v)) rfl rfl
        (Or.inl rfl) (Or.inl rfl)
    have f1i : s1.fetch_reg = immInstr r v := by rw [f1]; rfl
    have p1v : s1.pc = 1 := by rw [p1]; rfl
    obtain ⟨s2, c2, i2, w2, f2, d2, x2, p2, g2⟩ :=
      c6_step hr0 hr8 i1 w1 (Or.inl (by rw [d1]; rfl)) (Or.inl (by rw [x1]; rfl))
    have d2i : s2.decode_reg = immInstr r v := by rw [d2, f1i]
    obtain ⟨s3, c3, i3, w3, f3, d3, x3, p3, g3⟩ :=
      c6_step hr0 hr8 i2 w2 (Or.inr d2i) (Or.inl (by rw [x2, d1]; rfl))
    have x3i : s3.execute_reg = immInstr r v := by rw [x3, d2i]
    obtain ⟨s4, c4, i4, w4, f4, d4, x4, p4, g4⟩ :=
      c6_step hr0 hr8 i3 w3
        (by rw [d3, f2]; exact fetchAt_ok _ _ (prog_latchOK r v) (latchOK6_none r v) _)
        (Or.inr x3i)
    refine ⟨s4, ?_, i4, w4, ?_, ?_, ?_, ?_⟩
    · rw [show 4 + 0 = 3 + 1 from rfl, clockN_succ_left, c1, Option.some_bind,
        show (3 : Nat) = 2 + 1 from rfl, clockN_succ_left, c2, Option.some_bind,
        show (2 : Nat) = 1 + 1 from rfl, clockN_succ_left, c3, Option.some_bind,
        show (1 : Nat) = 0 + 1 from rfl, clockN_succ_left, c4, Option.some_bind]
      rfl
    · rw [f4]
      exact fetchAt_ok _ _ (prog_latchOK r v) (latchOK6_none r v) _
    · rw [d4, f3]
      exact fetchAt_ok _ _ (prog_latchOK r v) (latchOK6_none r v) _
    · rw [x4, d3, f2]
      exact fetchAt_ok _ _ (prog_latchOK r v) (latchOK6_none r v) _
    · rw [g4, x3i]
      simp [immInstr]
  | succ k ih =>
    obtain ⟨s, hs, hI, hw, hf, hd, he, hregs⟩ := ih
    obtain ⟨s', hc, hI', hw', hf', hd', he', hpc', hregs'⟩ := c6_step hr0 hr8 hI hw hd he
    refine ⟨s', ?_, hI', hw', ?_, ?_, ?_, ?_⟩
    · rw [show 4 + (k + 1) = (4 + k) + 1 from rfl, clockN_succ_right, hs,
        Option.some_bind]
      exact hc
    · rw [hf']
      exact fetchAt_ok _ _ (prog_latchOK r v) (latchOK6_none r v) _
    · rw [hd']; exact hf
    · rw [he']; exact hd
    · rw [hregs']
      rcases he with hno | him
      · rw [hno, if_neg (by decide : ¬ (Operation.NOOP = Operation.IMM))]
        exact hregs
      · rw [him]
        simp [immInstr]

/-- Witness for C6 at `r = 3`, `v = 200`, `n = 6`. -/
theorem C6_imm_latency_witness :
    ∃ s, clockN 6 (Emulator.withProgram (progC6 3 200)) = some s ∧
      (s.registers.read 3 : Int) = 200 :=
  C6_imm_latency 3 200 6 (by norm_num) (by norm_num) (by norm_num) (by norm_num)
    (by norm_num)

end Electron2
